import Mathlib

/-!
# Verification of the sandboxed calculator (`src/calculator.py`)

This file gives a shallow embedding of the arithmetic core of the
calculator: the percentage-rewriting normalizer (`replace_percent` and the
surrounding `re.sub`), the restricted expression parser (`ast.parse` in
`eval` mode, restricted to the token shapes reachable through the API
character set), the whitelist evaluator (`eval_node`), the result
formatter, and the API entry checks of `calculate_api`.

Modelling conventions, stated once here:

* Python `Decimal` values are modelled by the exact rational type `DecQ`
  below.  `getcontext().prec = 28` is modelled by rounding every
  arithmetic result to 28 significant digits with round-half-even, as the
  `decimal` module does.
* Python binary floats appearing as *literals* are modelled bit-exactly:
  a float literal is rounded to the nearest IEEE-754 binary64 value
  (`roundToDouble`), and `Decimal(str(val))` recovers the value of
  CPython's shortest round-tripping repr (`pyReprVal`).  The inputs
  reachable here (at most 200 characters, no exponent forms) never leave
  the normal binary64 range, so no infinity/subnormal handling is needed.
* Python floats produced by the `math` functions (`sqrt`, `sin`, ...)
  are idealized as exact real numbers: the evaluator is parameterized by
  a `FloatOps` structure and instantiated with `realOps`, whose fields
  are the exact real functions.  Every claim settled below is insensitive
  to binary64 rounding at this idealized layer (results are only ever
  observed through 10-fractional-digit rounding).
* Exceptions are modelled by the inductive `PyErr`; `safe_math_eval`
  catches all of them and returns the error to the caller, so the model
  returns `Except PyErr _`.  Message texts are modelled only where the
  source itself builds them (the `ValueError("Function not allowed: ...")`
  family); CPython-internal message texts of other exceptions are not
  modelled.
-/

set_option maxRecDepth 1000000

instance {ε α : Type} [DecidableEq ε] [DecidableEq α] : DecidableEq (Except ε α) :=
  fun x y =>
    match x, y with
    | .ok a, .ok b =>
      if h : a = b then isTrue (by rw [h])
      else isFalse (fun hh => by cases hh; exact h rfl)
    | .error e, .error f =>
      if h : e = f then isTrue (by rw [h])
      else isFalse (fun hh => by cases hh; exact h rfl)
    | .ok _, .error _ => isFalse (fun hh => by cases hh)
    | .error _, .ok _ => isFalse (fun hh => by cases hh)

namespace Calculator

/-! ## Exact decimal rationals (model of Python `Decimal` values and of
exact dyadic binary64 values).  `DecQ` is a raw numerator/denominator
pair; every operation returns a `norm`alized value, so that structural
equality of results coincides with equality of the represented rational
numbers. -/

structure DecQ where
  n : Int
  d : Nat
deriving DecidableEq, Repr

def DecQ.norm (n : Int) (d : Nat) : DecQ :=
  let g := Nat.gcd n.natAbs d
  if g = 0 then ⟨0, 1⟩ else ⟨n / (g : Int), d / g⟩

def DecQ.ofInt (n : Int) : DecQ := ⟨n, 1⟩

def DecQ.isZero (a : DecQ) : Bool := a.n = 0

/-- A normalized `DecQ` is an integer iff its denominator is 1; this is
the model of `result == result.to_integral_value()`. -/
def DecQ.isInt (a : DecQ) : Bool := a.d = 1

def DecQ.neg (a : DecQ) : DecQ := ⟨-a.n, a.d⟩

def DecQ.rabs (a : DecQ) : DecQ := ⟨|a.n|, a.d⟩

def DecQ.add (a b : DecQ) : DecQ := DecQ.norm (a.n * b.d + b.n * a.d) (a.d * b.d)

def DecQ.sub (a b : DecQ) : DecQ := DecQ.norm (a.n * b.d - b.n * a.d) (a.d * b.d)

def DecQ.mul (a b : DecQ) : DecQ := DecQ.norm (a.n * b.n) (a.d * b.d)

/-- Exact division of rationals (the divisor is assumed nonzero; callers
check for zero divisors first, as the `decimal` module signals those
separately). -/
def DecQ.divE (a b : DecQ) : DecQ :=
  DecQ.norm (a.n * (b.d : Int) * (if b.n < 0 then -1 else 1)) (a.d * b.n.natAbs)

def DecQ.blt (a b : DecQ) : Bool := a.n * b.d < b.n * a.d

def DecQ.isNeg (a : DecQ) : Bool := a.n < 0

def DecQ.floor (a : DecQ) : Int := Int.fdiv a.n a.d

/-- Round a rational to the nearest integer, ties to even (the rounding
used by `decimal`'s default `ROUND_HALF_EVEN` context and by Python's
`round`). -/
def DecQ.roundHalfEven (a : DecQ) : Int :=
  let f := a.floor
  let twice : Int := 2 * (a.n - f * a.d)
  if twice < a.d then f
  else if (a.d : Int) < twice then f + 1
  else if f % 2 = 0 then f else f + 1

/-- Number of decimal digits of a natural number (`0` has one digit), by
fuel-bounded recursion so that it reduces in the kernel. -/
def numDigitsAux : Nat → Nat → Nat
  | 0, _ => 0
  | f + 1, m => if m < 10 then 1 else numDigitsAux f (m / 10) + 1

def numDigits (m : Nat) : Nat := numDigitsAux 400 m

/-- Number of binary digits of a natural number, fuel-bounded. -/
def numBitsAux : Nat → Nat → Nat
  | 0, _ => 0
  | f + 1, m => if m < 2 then 1 else numBitsAux f (m / 2) + 1

def numBits (m : Nat) : Nat := numBitsAux 1400 m

def twoPow (e : Int) : DecQ :=
  if 0 ≤ e then ⟨2 ^ e.toNat, 1⟩ else ⟨1, 2 ^ (-e).toNat⟩

def tenPow (e : Int) : DecQ :=
  if 0 ≤ e then ⟨10 ^ e.toNat, 1⟩ else ⟨1, 10 ^ (-e).toNat⟩

/-- The `qlog2 a` for positive `a`: the unique `k` with `2 ^ k ≤ a < 2 ^ (k + 1)`,
computed from bit lengths and corrected by direct comparison. -/
def qlog2 (a : DecQ) : Int :=
  let e0 : Int := (numBits a.n.natAbs : Int) - (numBits a.d : Int)
  if a.blt (twoPow (e0 - 1)) then e0 - 2
  else if a.blt (twoPow e0) then e0 - 1
  else if a.blt (twoPow (e0 + 1)) then e0
  else e0 + 1

/-- The `qlog10 a` for positive `a`: the unique `k` with `10 ^ k ≤ a < 10 ^ (k + 1)`. -/
def qlog10 (a : DecQ) : Int :=
  let e0 : Int := (numDigits a.n.natAbs : Int) - (numDigits a.d : Int)
  if a.blt (tenPow (e0 - 1)) then e0 - 2
  else if a.blt (tenPow e0) then e0 - 1
  else if a.blt (tenPow (e0 + 1)) then e0
  else e0 + 1

/-- Round a rational to `p` significant decimal digits, half to even.
This is the model of the `decimal` context with `prec = 28` applied to an
exact arithmetic result: values that already fit in `p` digits are left
unchanged. -/
def roundSig (p : Nat) (a : DecQ) : DecQ :=
  if a.n = 0 then ⟨0, 1⟩ else
  let k := qlog10 a.rabs
  let e : Int := (p : Int) - 1 - k
  let m : Int := (a.rabs.mul (tenPow e)).roundHalfEven
  let v := (DecQ.ofInt m).mul (tenPow (-e))
  if a.n < 0 then v.neg else v

/-- Context rounding used after every `Decimal` arithmetic operation
(`getcontext().prec = 28`). -/
def ctxRound (a : DecQ) : DecQ := roundSig 28 a

/-- Round a positive rational to the nearest IEEE-754 binary64 value
(round half to even), as CPython does when a decimal literal is turned
into a `float`.  Inputs reachable in this program (≤ 200 characters, no
exponent forms) are always inside the normal range, so overflow and
subnormal cases do not arise and are not modelled. -/
def roundToDouble (a : DecQ) : DecQ :=
  if a.n = 0 then ⟨0, 1⟩ else
  let s : Bool := a.n < 0
  let x := a.rabs
  let k := qlog2 x
  let e : Int := 52 - k
  let m : Int := (x.mul (twoPow e)).roundHalfEven
  let v := (DecQ.ofInt m).mul (twoPow (-e))
  if s then v.neg else v

/-- Round a positive rational to `dgs` significant decimal digits, half to
even (used for candidate shortest reprs). -/
def sigCandidate (dgs : Nat) (x : DecQ) : DecQ :=
  let k := qlog10 x
  let e : Int := (dgs : Int) - 1 - k
  (DecQ.ofInt ((x.mul (tenPow e)).roundHalfEven)).mul (tenPow (-e))

def pyReprAux (x : DecQ) : Nat → Nat → DecQ
  | 0, _ => sigCandidate 17 x
  | f + 1, dgs =>
    let c := sigCandidate dgs x
    if roundToDouble c = x then c else pyReprAux x f (dgs + 1)

/-- The numeric value of CPython's `repr` of a binary64 value `a` (given
as the exact rational value of that binary64): the shortest decimal
representation, among 1 to 17 significant digits, that rounds back to
`a`; each candidate is the correctly rounded decimal of that length.
`Decimal(str(val))` in `eval_node` yields exactly this value. -/
def pyReprVal (a : DecQ) : DecQ :=
  if a.n = 0 then ⟨0, 1⟩ else
  let c := pyReprAux a.rabs 17 1
  if a.n < 0 then c.neg else c

/-- Value used by the evaluator for a Python `float` literal with exact
decimal value `a`: the literal is first rounded to binary64 by the
CPython tokenizer, and `eval_node` then applies `Decimal(str(val))`. -/
def floatLitVal (a : DecQ) : DecQ := pyReprVal (roundToDouble a)

/-- Rational value of a `DecQ`, for stating claims over `ℚ`. -/
def DecQ.toRat (a : DecQ) : ℚ := (a.n : ℚ) / (a.d : ℚ)

/-! ## The normalizer: `expr.strip().replace('^','**').replace('×','*')
.replace('÷','/')` followed by `re.sub(r'(\d+\.?\d*)%', replace_percent,
expr)` (lines 65–85 of `calculator.py`). -/

/-- The characters for which CPython's `str.isspace()` is true: these
are exactly the characters stripped by `str.strip()` and matched by the
`re` module's `\s` on `str` patterns (both use `Py_UNICODE_ISSPACE`):
`0x09`–`0x0D`, `0x1C`–`0x1F`, space, NEL (`0x85`), NBSP (`0xA0`), Ogham
space mark (`0x1680`), `0x2000`–`0x200A`, line/paragraph separator
(`0x2028`/`0x2029`), narrow NBSP (`0x202F`), medium mathematical space
(`0x205F`) and ideographic space (`0x3000`). -/
def isPyWs (c : Char) : Bool :=
  ('\x09' ≤ c && c ≤ '\x0d') || c = ' ' || ('\x1c' ≤ c && c ≤ '\x1f') ||
  c = '\u0085' || c = '\u00a0' || c = '\u1680' ||
  ('\u2000' ≤ c && c ≤ '\u200a') || c = '\u2028' || c = '\u2029' ||
  c = '\u202f' || c = '\u205f' || c = '\u3000'

def pyStripL (l : List Char) : List Char :=
  ((l.dropWhile isPyWs).reverse.dropWhile isPyWs).reverse

/-- The three `str.replace` calls of line 65.  A single right fold is
equivalent to the three sequential passes because no replacement output
(`**`, `*`, `/`) contains a character replaced by a later pass. -/
def replaceAliases (l : List Char) : List Char :=
  l.foldr
    (fun c acc =>
      if c = '^' then '*' :: '*' :: acc
      else if c = '×' then '*' :: acc
      else if c = '÷' then '/' :: acc
      else c :: acc) []

def isDigitCh (c : Char) : Bool := '0' ≤ c && c ≤ '9'

/-- Attempt to match the regex `(\d+\.?\d*)%` at the head of `l`.  On
success, returns the content of the capture group and the remainder of
the list after the `%`.  The greedy extent of `\d+\.?\d*` followed by the
mandatory `%` is exactly: a nonempty digit run, optionally followed by a
dot and a (possibly empty) digit run, with `%` immediately after. -/
def matchPct (l : List Char) : Option (List Char × List Char) :=
  match l.takeWhile isDigitCh, l.dropWhile isDigitCh with
  | [], _ => none
  | d1, '%' :: r => some (d1, r)
  | d1, '.' :: r2 =>
    (match r2.dropWhile isDigitCh with
     | '%' :: r => some (d1 ++ '.' :: r2.takeWhile isDigitCh, r)
     | _ => none)
  | _, _ => none

def isBaseCh (c : Char) : Bool := isDigitCh c || c = '.'

def isArithOp (c : Char) : Bool := c = '+' || c = '-' || c = '*' || c = '/'

/-- Full match of `[\d.]+(?:[+\-*/][\d.]+)*` (the language of the
backward-search regex of line 79), fuel-bounded for kernel reduction. -/
def inBaseLangF : Nat → List Char → Bool
  | 0, _ => false
  | f + 1, l =>
    if (l.takeWhile isBaseCh).isEmpty then false
    else
      match l.dropWhile isBaseCh with
      | [] => true
      | op :: r2 => isArithOp op && inBaseLangF f r2

def inBaseLang (l : List Char) : Bool := inBaseLangF (l.length + 1) l

/-- The `re.search(r'([\d.]+(?:[+\-*/][\d.]+)*)$', before)`: the leftmost
start position of an end-anchored match, i.e. the longest suffix of
`before` in the language above. -/
def findBase : List Char → Option (List Char)
  | [] => none
  | c :: t => if inBaseLang (c :: t) then some (c :: t) else findBase t

def endsWithOpParen (before : List Char) : Bool :=
  match before.getLast? with
  | some c => c = '+' || c = '-' || c = '*' || c = '/' || c = '('
  | none => false

/-- The `replace_percent` callback (lines 69–83): `before` is the prefix
of the (pre-substitution) expression up to the match start, `num` the
capture group. -/
def replace_percent (before num : List Char) : List Char :=
  if endsWithOpParen before then '(' :: num ++ "/100)".data
  else
    match findBase before with
    | some base => "+(".data ++ base ++ '*' :: num ++ "/100)".data
    | none => '(' :: num ++ "/100)".data

/-- The `re.sub` scan (line 85): at each position, try the pattern; on a
match, emit the replacement and resume after the match, otherwise emit
the character and advance.  `before` accumulates the original prefix, as
read by the closure.  Fuel-bounded structurally; callers pass at least
`length + 1`, under which fuel never runs out (each step consumes at
least one character). -/
def subScanF : Nat → List Char → List Char → List Char
  | 0, _, _ => []
  | _ + 1, _, [] => []
  | f + 1, before, c :: rest =>
    match matchPct (c :: rest) with
    | some (num, rest2) =>
      replace_percent before num ++ subScanF f (before ++ num ++ ['%']) rest2
    | none => c :: subScanF f (before ++ [c]) rest

def subPercent (l : List Char) : List Char := subScanF (l.length + 1) [] l

/-- The full normalization of lines 65–85: strip, alias replacement, then
the percentage rewrite.  This is the "normalized expression" handed to
`ast.parse`. -/
def normalizeExpr (l : List Char) : List Char :=
  subPercent (replaceAliases (pyStripL l))

/-- The last character of `xs`, or `prev` when `xs` is empty (used to
track the character preceding the scanner's position). -/
def lastD : List Char → Option Char → Option Char
  | [], prev => prev
  | c :: r, _ => lastD r (some c)

/-- Every `'%'` in the list is immediately preceded by a digit, where
the character preceding the head is `prev`.  This is the precondition
under which the percent rewrite provably eliminates every `'%'`. -/
def pctOkFrom : Option Char → List Char → Bool
  | _, [] => true
  | prev, c :: r =>
    (if c = '%' then
      (match prev with
       | some d => isDigitCh d
       | none => false)
     else true) && pctOkFrom (some c) r

/-! ## Errors.  Every constructor corresponds to an exception class
reachable in `safe_math_eval`; all of them are caught by the `except`
clauses of lines 134–138 and turned into an error string for the caller.
Message text is modelled only for the `ValueError`s raised explicitly by
the source. -/

inductive PyErr
  /-- The `SyntaxError` from `ast.parse` (including tokenization failures). -/
  | syntaxError
  /-- The `ValueError(msg)` raised by `eval_node`, and `ValueError: math
  domain error` from the `math` functions. -/
  | valueError (msg : String)
  /-- The `TypeError`: mixed `Decimal`/`float` operands, non-callable or
  wrongly-called whitelist objects, bad argument counts or types. -/
  | typeError
  /-- The `decimal.DivisionByZero` (a `ZeroDivisionError` subclass). -/
  | decDivByZero
  /-- The `decimal.InvalidOperation`. -/
  | decInvalidOp
  /-- The `ZeroDivisionError` on non-`Decimal` operands (ints/floats). -/
  | zeroDivision
  /-- The `OverflowError` (e.g. `int()` of an infinite value); defensive. -/
  | overflow
  /-- Python's recursion limit (`RecursionError`, caught by the generic
  `except Exception`).  In this model it stands for fuel exhaustion of
  the fuel-indexed recursions; with the fuel margins used below and the
  200-character input bound it is never reached. -/
  | recursionLimit
deriving DecidableEq, Repr

/-- The error raised by `eval_node` for a name or callee outside
`ALLOWED_MATH_NAMES` (lines 96 and 113). -/
def nameNotAllowed (id : String) : PyErr :=
  .valueError ("Function not allowed: " ++ id)

/-! ## Tokenizer (the part of `ast.parse` that splits the normalized
text; restricted to the character shapes reachable here: numbers without
exponent or underscore forms, ASCII identifiers, the operator and
delimiter set of the grammar).  Any other character is a tokenization
error, reported as `SyntaxError` like all parse failures. -/

inductive Tok
  | num (s : List Char)
  | name (s : String)
  | kwTrue | kwFalse | kwNone
  | lparen | rparen | comma | dot
  | plus | minus | star | slash | dstar | dslash | percent
deriving DecidableEq, Repr

def isAlphaCh (c : Char) : Bool :=
  ('a' ≤ c && c ≤ 'z') || ('A' ≤ c && c ≤ 'Z') || c = '_'

def isIdentCh (c : Char) : Bool := isAlphaCh c || isDigitCh c

/-- Python reserved keywords.  `True`/`False`/`None` become constants;
any other keyword in the expression positions reachable here makes the
parse fail (modelled directly as a tokenizer-level rejection: of these
keywords only `not` and `lambda` can begin a larger Python expression,
and neither is whitelisted nor reachable from any claim). -/
def pyKeywords : List String :=
  ["False", "None", "True", "and", "as", "assert", "async", "await",
   "break", "class", "continue", "def", "del", "elif", "else", "except",
   "finally", "for", "from", "global", "if", "import", "in", "is",
   "lambda", "nonlocal", "not", "or", "pass", "raise", "return", "try",
   "while", "with", "yield"]

/-- The whitespace the CPython tokenizer skips inside a logical line:
space, tab and formfeed.  Other `str.isspace()` characters (vertical
tab, `0x1c`–`0x1f`, NBSP, ...) are invalid in Python source outside
strings and make tokenization fail; a newline ends the `eval`-mode
expression and is only legal when followed by nothing but whitespace
(implicit line joining inside brackets is not modelled — no reachable
input of any claim contains a bracketed newline). -/
def isTokWs (c : Char) : Bool := c = ' ' || c = '\t' || c = '\x0c'

def tokenizeF : Nat → List Char → Except PyErr (List Tok)
  | 0, _ => .error .recursionLimit
  | _ + 1, [] => .ok []
  | f + 1, c :: rest =>
    if isTokWs c then tokenizeF f rest
    else if c = '\n' || c = '\r' then
      if rest.all (fun c2 => isTokWs c2 || c2 = '\n' || c2 = '\r') then .ok []
      else .error .syntaxError
    else if isDigitCh c then
      let d1 := (c :: rest).takeWhile isDigitCh
      match (c :: rest).dropWhile isDigitCh with
      | '.' :: r2 =>
        (tokenizeF f (r2.dropWhile isDigitCh)).map
          (fun ts => .num (d1 ++ '.' :: r2.takeWhile isDigitCh) :: ts)
      | r1 => (tokenizeF f r1).map (fun ts => .num d1 :: ts)
    else if c = '.' then
      match rest with
      | r0 :: _ =>
        if isDigitCh r0 then
          (tokenizeF f (rest.dropWhile isDigitCh)).map
            (fun ts => .num ('.' :: rest.takeWhile isDigitCh) :: ts)
        else (tokenizeF f rest).map (fun ts => .dot :: ts)
      | [] => .ok [.dot]
    else if isAlphaCh c then
      let w := (c :: rest).takeWhile isIdentCh
      let s := String.mk w
      let r := (c :: rest).dropWhile isIdentCh
      if s = "True" then (tokenizeF f r).map (fun ts => .kwTrue :: ts)
      else if s = "False" then (tokenizeF f r).map (fun ts => .kwFalse :: ts)
      else if s = "None" then (tokenizeF f r).map (fun ts => .kwNone :: ts)
      else if pyKeywords.contains s then .error .syntaxError
      else (tokenizeF f r).map (fun ts => .name s :: ts)
    else if c = '*' then
      match rest with
      | '*' :: r => (tokenizeF f r).map (fun ts => .dstar :: ts)
      | r => (tokenizeF f r).map (fun ts => .star :: ts)
    else if c = '/' then
      match rest with
      | '/' :: r => (tokenizeF f r).map (fun ts => .dslash :: ts)
      | r => (tokenizeF f r).map (fun ts => .slash :: ts)
    else if c = '+' then (tokenizeF f rest).map (fun ts => .plus :: ts)
    else if c = '-' then (tokenizeF f rest).map (fun ts => .minus :: ts)
    else if c = '(' then (tokenizeF f rest).map (fun ts => .lparen :: ts)
    else if c = ')' then (tokenizeF f rest).map (fun ts => .rparen :: ts)
    else if c = ',' then (tokenizeF f rest).map (fun ts => .comma :: ts)
    else if c = '%' then (tokenizeF f rest).map (fun ts => .percent :: ts)
    else .error .syntaxError

def tokenize (l : List Char) : Except PyErr (List Tok) :=
  tokenizeF (l.length + 1) l

/-! ## Abstract syntax (the `ast` node shapes reachable through the
grammar above) and the parser. -/

/-- A parsed Python constant (`ast.Constant`).  CPython's tokenizer has
already rounded a float literal to binary64 at this point; `floatv`
carries the exact rational value of that binary64. -/
inductive PyConst
  | intv (v : Int)
  | floatv (v : DecQ)
  | boolv (b : Bool)
  | nonev
deriving DecidableEq, Repr

inductive BinOpK
  | add | sub | mult | div | floordiv | mod | pow
deriving DecidableEq, Repr

inductive UnOpK
  | usub | uadd
deriving DecidableEq, Repr

inductive Node
  | const (v : PyConst)
  | name (id : String)
  | binop (op : BinOpK) (l r : Node)
  | unaryop (op : UnOpK) (x : Node)
  | call (fn : Node) (args : List Node)
  /-- Attribute access `x.attr` (always rejected by `eval_node` as an
  unsupported element, so the attribute text is irrelevant). -/
  | attr (x : Node)
  | tuple (xs : List Node)

/-- Digit-string (with optional single dot) to exact decimal value. -/
def digitsVal (l : List Char) : Nat :=
  l.foldl (fun acc c => acc * 10 + (c.toNat - 48)) 0

def exactLitVal (s : List Char) : DecQ :=
  let ip := s.takeWhile (fun c => c ≠ '.')
  match s.dropWhile (fun c => c ≠ '.') with
  | _ :: fp =>
    DecQ.norm ((digitsVal ip : Int) * 10 ^ fp.length + (digitsVal fp : Int))
      (10 ^ fp.length)
  | [] => ⟨(digitsVal ip : Int), 1⟩

/-- Value of a number token: a token containing a dot is a float literal
(rounded to binary64 by the tokenizer); otherwise an exact int literal,
subject to Python 3's no-leading-zero rule for nonzero integers. -/
def numTokVal (s : List Char) : Except PyErr PyConst :=
  if s.contains '.' then .ok (.floatv (roundToDouble (exactLitVal s)))
  else if s.head? = some '0' && s.any (fun c => c ≠ '0') then .error .syntaxError
  else .ok (.intv (digitsVal s : Int))

mutual

def parseSum : Nat → List Tok → Except PyErr (Node × List Tok)
  | 0, _ => .error .recursionLimit
  | f + 1, ts => do
    let (l, ts1) ← parseTerm f ts
    parseSumRest f l ts1

def parseSumRest : Nat → Node → List Tok → Except PyErr (Node × List Tok)
  | 0, _, _ => .error .recursionLimit
  | f + 1, l, .plus :: ts => do
    let (r, ts1) ← parseTerm f ts
    parseSumRest f (.binop .add l r) ts1
  | f + 1, l, .minus :: ts => do
    let (r, ts1) ← parseTerm f ts
    parseSumRest f (.binop .sub l r) ts1
  | _ + 1, l, ts => .ok (l, ts)

def parseTerm : Nat → List Tok → Except PyErr (Node × List Tok)
  | 0, _ => .error .recursionLimit
  | f + 1, ts => do
    let (l, ts1) ← parseFactor f ts
    parseTermRest f l ts1

def parseTermRest : Nat → Node → List Tok → Except PyErr (Node × List Tok)
  | 0, _, _ => .error .recursionLimit
  | f + 1, l, .star :: ts => do
    let (r, ts1) ← parseFactor f ts
    parseTermRest f (.binop .mult l r) ts1
  | f + 1, l, .slash :: ts => do
    let (r, ts1) ← parseFactor f ts
    parseTermRest f (.binop .div l r) ts1
  | f + 1, l, .dslash :: ts => do
    let (r, ts1) ← parseFactor f ts
    parseTermRest f (.binop .floordiv l r) ts1
  | f + 1, l, .percent :: ts => do
    let (r, ts1) ← parseFactor f ts
    parseTermRest f (.binop .mod l r) ts1
  | _ + 1, l, ts => .ok (l, ts)

def parseFactor : Nat → List Tok → Except PyErr (Node × List Tok)
  | 0, _ => .error .recursionLimit
  | f + 1, .plus :: ts => do
    let (x, ts1) ← parseFactor f ts
    .ok (.unaryop .uadd x, ts1)
  | f + 1, .minus :: ts => do
    let (x, ts1) ← parseFactor f ts
    .ok (.unaryop .usub x, ts1)
  | f + 1, ts => parsePower f ts

def parsePower : Nat → List Tok → Except PyErr (Node × List Tok)
  | 0, _ => .error .recursionLimit
  | f + 1, ts => do
    let (b, ts1) ← parseUnit f ts
    match ts1 with
    | .dstar :: ts2 => do
      let (e, ts3) ← parseFactor f ts2
      .ok (.binop .pow b e, ts3)
    | _ => .ok (b, ts1)

def parseUnit : Nat → List Tok → Except PyErr (Node × List Tok)
  | 0, _ => .error .recursionLimit
  | f + 1, ts => do
    let (a, ts1) ← parseAtom f ts
    parseTrailers f a ts1

def parseAtom : Nat → List Tok → Except PyErr (Node × List Tok)
  | 0, _ => .error .recursionLimit
  | _ + 1, .num s :: ts => (numTokVal s).map (fun v => (.const v, ts))
  | _ + 1, .name s :: ts => .ok (.name s, ts)
  | _ + 1, .kwTrue :: ts => .ok (.const (.boolv true), ts)
  | _ + 1, .kwFalse :: ts => .ok (.const (.boolv false), ts)
  | _ + 1, .kwNone :: ts => .ok (.const .nonev, ts)
  | _ + 1, .lparen :: .rparen :: ts => .ok (.tuple [], ts)
  | f + 1, .lparen :: ts => do
    let (xs, tc, ts1) ← parseExprList f ts
    match ts1 with
    | .rparen :: ts2 =>
      match xs, tc with
      | [x], false => .ok (x, ts2)
      | _, _ => .ok (.tuple xs, ts2)
    | _ => .error .syntaxError
  | _ + 1, _ => .error .syntaxError

def parseTrailers : Nat → Node → List Tok → Except PyErr (Node × List Tok)
  | 0, _, _ => .error .recursionLimit
  | f + 1, b, .lparen :: .rparen :: ts => parseTrailers f (.call b []) ts
  | f + 1, b, .lparen :: ts => do
    let (xs, _, ts1) ← parseExprList f ts
    match ts1 with
    | .rparen :: ts2 => parseTrailers f (.call b xs) ts2
    | _ => .error .syntaxError
  | f + 1, b, .dot :: .name _ :: ts => parseTrailers f (.attr b) ts
  | _ + 1, _, .dot :: _ => .error .syntaxError
  | _ + 1, b, ts => .ok (b, ts)

def parseExprList : Nat → List Tok → Except PyErr (List Node × Bool × List Tok)
  | 0, _ => .error .recursionLimit
  | f + 1, ts => do
    let (x, ts1) ← parseSum f ts
    match ts1 with
    | .comma :: ts2 =>
      match ts2 with
      | [] => .ok ([x], true, [])
      | .rparen :: _ => .ok ([x], true, ts2)
      | _ => do
        let (xs, tc, ts3) ← parseExprList f ts2
        .ok (x :: xs, tc, ts3)
    | _ => .ok ([x], false, ts1)

end

/-- The `ast.parse(expr, mode='eval')` on the normalized text: tokenize and
parse a full expression (a top-level comma builds a tuple, as in Python).
The fuel bound `10 * tokens + 10` exceeds the recursion needed for any
token list, since every ten levels of descent consume a token. -/
def parseExpr (l : List Char) : Except PyErr Node := do
  let ts ← tokenize l
  let (xs, tc, rest) ← parseExprList (10 * ts.length + 10) ts
  match rest with
  | [] =>
    match xs, tc with
    | [x], false => .ok x
    | _, _ => .ok (.tuple xs)
  | _ => .error .syntaxError

/-! ## The evaluator (`eval_node`, lines 90–121).

Values are the run-time types that can flow through `eval_node`:
`Decimal` (from literals via `Decimal(str(val))`), Python `int` (only
from the builtin `round`), Python `float` (from `math.pi`, `math.e` and
the `math` functions), the whitelisted function objects themselves (a
bare `ast.Name` evaluates to the dictionary entry), `None` (from the
literal `None`).  Floats are parameterized over a carrier `α` with the
operations `FloatOps` provides; the program is instantiated at `realOps`
below, which idealizes binary64 arithmetic as exact real arithmetic. -/

structure FloatOps (α : Type) where
  ofDec : DecQ → α
  pi : α
  e : α
  add : α → α → α
  sub : α → α → α
  mul : α → α → α
  div : α → α → α
  fldiv : α → α → α
  fmod : α → α → α
  fpow : α → α → α
  neg : α → α
  fabs : α → α
  sqrt : α → α
  sin : α → α
  cos : α → α
  tan : α → α
  log10 : α → α
  ln : α → α
  /-- The `math.radians`: multiplication by `pi / 180`. -/
  radians : α → α
  isZero : α → Bool
  isNeg : α → Bool
  /-- The `round(x, 10)`: rounding to 10 fractional digits, half to even. -/
  round10 : α → α
  /-- The `round(x)`: rounding to an integer, half to even. -/
  roundInt : α → Int
  /-- The `round(x, n)` for an `int` second argument. -/
  roundN : α → Int → α

/-- The distinct whitelisted function objects of `ALLOWED_MATH_NAMES`
(the two constants `pi` and `e` are handled separately since the
dictionary maps them to floats, not callables). -/
inductive MathFn
  | sqrt | sin | cos | tan | log | ln | abs | round
deriving DecidableEq, Repr

inductive MathObj
  | pi | e | fn (f : MathFn)
deriving DecidableEq, Repr

/-- The `ALLOWED_MATH_NAMES` dictionary (lines 48–54) as a lookup. -/
def ALLOWED_MATH_NAMES : String → Option MathObj
  | "pi" => some .pi
  | "e" => some .e
  | "sqrt" => some (.fn .sqrt)
  | "sin" => some (.fn .sin)
  | "cos" => some (.fn .cos)
  | "tan" => some (.fn .tan)
  | "log" => some (.fn .log)
  | "ln" => some (.fn .ln)
  | "abs" => some (.fn .abs)
  | "round" => some (.fn .round)
  | _ => none

inductive Value (α : Type)
  | dec (q : DecQ)
  | float (x : α)
  | int (n : Int)
  | func (f : MathFn)
  | pynone
deriving DecidableEq, Repr

/-- The `float(x)` conversion applied by the `math` functions to their
argument (idealized as exact for `Decimal` arguments; see the module
comment).  Non-numeric arguments raise `TypeError`. -/
def toFloat (F : FloatOps α) : Value α → Except PyErr α
  | .dec q => .ok (F.ofDec q)
  | .int n => .ok (F.ofDec ⟨n, 1⟩)
  | .float x => .ok x
  | _ => .error .typeError

/-- The `Decimal` division with the `decimal` zero-divisor signals:
`x / 0` is `DivisionByZero` for `x ≠ 0` and `InvalidOperation` for
`0 / 0`. -/
def decDiv (a b : DecQ) : Except PyErr DecQ :=
  if b.isZero then
    .error (if a.isZero then .decInvalidOp else .decDivByZero)
  else .ok (ctxRound (a.divE b))

/-- Truncation toward zero of the exact quotient `a / b` (Python's
`Decimal.__floordiv__` truncates toward zero, unlike `int`
floor-division). -/
def decTruncQuot (a b : DecQ) : Int :=
  Int.tdiv (a.n * (b.d : Int) * (if b.n < 0 then -1 else 1)) (a.d * b.n.natAbs : Nat)

/-- The `Decimal // Decimal`: zero divisor signals as for `/`; a quotient
needing more than 28 digits raises `InvalidOperation`. -/
def decFloorDiv (a b : DecQ) : Except PyErr DecQ :=
  if b.isZero then
    .error (if a.isZero then .decInvalidOp else .decDivByZero)
  else
    let t := decTruncQuot a b
    if 28 < numDigits t.natAbs then .error .decInvalidOp
    else .ok ⟨t, 1⟩

/-- The `Decimal % Decimal`: remainder with the sign of the dividend
(`a - trunc(a/b) * b`); a zero divisor raises `InvalidOperation`. -/
def decMod (a b : DecQ) : Except PyErr DecQ :=
  if b.isZero then .error .decInvalidOp
  else .ok (ctxRound (a.sub ((DecQ.ofInt (decTruncQuot a b)).mul b)))

/-- The `Decimal ** Decimal`.  An integral exponent is computed exactly and
context-rounded; `0 ** 0` and `0 ** negative` follow the `decimal`
signals.  A non-integral exponent would be computed by `decimal` as a
correctly rounded transcendental power for a positive base
(`InvalidOperation` for a negative one); no claim exercises that case,
and the model conservatively reports `InvalidOperation` there. -/
def decPow (a b : DecQ) : Except PyErr DecQ :=
  if b.isInt then
    if a.isZero then
      if b.n < 0 then .error .decDivByZero
      else if b.n = 0 then .error .decInvalidOp
      else .ok ⟨0, 1⟩
    else
      if 0 ≤ b.n then .ok (ctxRound ⟨a.n ^ b.n.toNat, a.d ^ b.n.toNat⟩)
      else .ok (ctxRound (DecQ.norm ((a.d : Int) ^ (-b.n).toNat * (if a.n < 0 && (-b.n).toNat % 2 = 1 then -1 else 1)) (a.n.natAbs ^ (-b.n).toNat)))
  else .error .decInvalidOp

/-- The `Decimal` against `Decimal` (or coerced `int`): every result is
rounded by the 28-digit context. -/
def applyBinDec {α : Type} : BinOpK → DecQ → DecQ → Except PyErr (Value α)
  | .add, a, b => .ok (.dec (ctxRound (a.add b)))
  | .sub, a, b => .ok (.dec (ctxRound (a.sub b)))
  | .mult, a, b => .ok (.dec (ctxRound (a.mul b)))
  | .div, a, b => (decDiv a b).map .dec
  | .floordiv, a, b => (decFloorDiv a b).map .dec
  | .mod, a, b => (decMod a b).map .dec
  | .pow, a, b => (decPow a b).map .dec

/-- Python `int` against `int`: exact, with `/` and negative `**`
producing floats and `ZeroDivisionError` on zero divisors. -/
def applyBinInt {α : Type} (F : FloatOps α) : BinOpK → Int → Int → Except PyErr (Value α)
  | .add, n, m => .ok (.int (n + m))
  | .sub, n, m => .ok (.int (n - m))
  | .mult, n, m => .ok (.int (n * m))
  | .div, n, m =>
    if m = 0 then .error .zeroDivision
    else .ok (.float (F.ofDec (DecQ.norm (n * (if m < 0 then -1 else 1)) m.natAbs)))
  | .floordiv, n, m =>
    if m = 0 then .error .zeroDivision else .ok (.int (Int.fdiv n m))
  | .mod, n, m =>
    if m = 0 then .error .zeroDivision else .ok (.int (n - Int.fdiv n m * m))
  | .pow, n, m =>
    if 0 ≤ m then .ok (.int (n ^ m.toNat))
    else if n = 0 then .error .zeroDivision
    else .ok (.float (F.ofDec (DecQ.norm ((if n < 0 && (-m).toNat % 2 = 1 then -1 else 1)) (n.natAbs ^ (-m).toNat))))

/-- The `float` against `float` (or coerced `int`).  A negative base with a
non-integral exponent would produce a `complex` in CPython; no claim
reaches that case and `F.fpow` is left abstract there. -/
def applyBinFloat {α : Type} (F : FloatOps α) : BinOpK → α → α → Except PyErr (Value α)
  | .add, x, y => .ok (.float (F.add x y))
  | .sub, x, y => .ok (.float (F.sub x y))
  | .mult, x, y => .ok (.float (F.mul x y))
  | .div, x, y =>
    if F.isZero y then .error .zeroDivision else .ok (.float (F.div x y))
  | .floordiv, x, y =>
    if F.isZero y then .error .zeroDivision else .ok (.float (F.fldiv x y))
  | .mod, x, y =>
    if F.isZero y then .error .zeroDivision else .ok (.float (F.fmod x y))
  | .pow, x, y => .ok (.float (F.fpow x y))

/-- Apply a binary operator from `ALLOWED_OPERATORS` to two values,
following Python's dispatch: `Decimal` mixes with `int` but raises
`TypeError` against `float`; `int / int` and `int ** negative int`
produce floats; zero divisors raise the indicated exceptions.  Any
operand that is a function object or `None` raises `TypeError`. -/
def applyBin (F : FloatOps α) : BinOpK → Value α → Value α → Except PyErr (Value α)
  | op, .dec a, .dec b => applyBinDec op a b
  | op, .dec a, .int m => applyBinDec op a ⟨m, 1⟩
  | op, .int n, .dec b => applyBinDec op ⟨n, 1⟩ b
  | op, .int n, .int m => applyBinInt F op n m
  | op, .float x, .float y => applyBinFloat F op x y
  | op, .float x, .int m => applyBinFloat F op x (F.ofDec ⟨m, 1⟩)
  | op, .int n, .float y => applyBinFloat F op (F.ofDec ⟨n, 1⟩) y
  | _, _, _ => .error .typeError

/-- Unary operators (`USub`, `UAdd`).  On `Decimal` both apply context
rounding; on functions and `None` they raise `TypeError`. -/
def applyUnary (F : FloatOps α) : UnOpK → Value α → Except PyErr (Value α)
  | .usub, .dec q => .ok (.dec (ctxRound q.neg))
  | .usub, .int n => .ok (.int (-n))
  | .usub, .float x => .ok (.float (F.neg x))
  | .uadd, .dec q => .ok (.dec (ctxRound q))
  | .uadd, .int n => .ok (.int n)
  | .uadd, .float x => .ok (.float x)
  | _, _ => .error .typeError

/-- Application of a whitelisted callable (`func(*args)`, line 118),
with CPython's argument-count and domain behavior:
`math.sqrt`/`math.log10` raise `ValueError: math domain error` outside
their domain, `math.log` accepts an optional base (computed as a float
quotient of logarithms, so base 1 raises `ZeroDivisionError`), `abs`
preserves the operand type, `round` with one argument returns an `int`
(half-to-even), and `round` with a `Decimal` second argument raises
`TypeError`.  Calling the non-callable floats `pi`/`e` raises
`TypeError`. -/
def applyMath (F : FloatOps α) : MathObj → List (Value α) → Except PyErr (Value α)
  | .pi, _ => .error .typeError
  | .e, _ => .error .typeError
  | .fn .sqrt, [v] =>
    match toFloat F v with
    | .error err => .error err
    | .ok x =>
      if F.isNeg x then .error (.valueError "math domain error")
      else .ok (.float (F.sqrt x))
  | .fn .sin, [v] =>
    match toFloat F v with
    | .error err => .error err
    | .ok x => .ok (.float (F.sin (F.radians x)))
  | .fn .cos, [v] =>
    match toFloat F v with
    | .error err => .error err
    | .ok x => .ok (.float (F.cos (F.radians x)))
  | .fn .tan, [v] =>
    match toFloat F v with
    | .error err => .error err
    | .ok x => .ok (.float (F.tan (F.radians x)))
  | .fn .log, [v] =>
    match toFloat F v with
    | .error err => .error err
    | .ok x =>
      if F.isNeg x || F.isZero x then .error (.valueError "math domain error")
      else .ok (.float (F.log10 x))
  | .fn .ln, [v] =>
    match toFloat F v with
    | .error err => .error err
    | .ok x =>
      if F.isNeg x || F.isZero x then .error (.valueError "math domain error")
      else .ok (.float (F.ln x))
  | .fn .ln, [v, b] =>
    match toFloat F v, toFloat F b with
    | .error err, _ => .error err
    | .ok _, .error err => .error err
    | .ok x, .ok y =>
      if F.isNeg x || F.isZero x || F.isNeg y || F.isZero y then
        .error (.valueError "math domain error")
      else if F.isZero (F.ln y) then .error .zeroDivision
      else .ok (.float (F.div (F.ln x) (F.ln y)))
  | .fn .abs, [.dec q] => .ok (.dec (ctxRound q.rabs))
  | .fn .abs, [.int n] => .ok (.int |n|)
  | .fn .abs, [.float x] => .ok (.float (F.fabs x))
  | .fn .abs, [_] => .error .typeError
  | .fn .round, [.dec q] => .ok (.int q.roundHalfEven)
  | .fn .round, [.int n] => .ok (.int n)
  | .fn .round, [.float x] => .ok (.int (F.roundInt x))
  | .fn .round, [_] => .error .typeError
  | .fn .round, [.dec q, .int m] =>
    let c := (q.mul (tenPow m)).roundHalfEven
    if 28 < numDigits c.natAbs then .error .decInvalidOp
    else .ok (.dec ((DecQ.ofInt c).mul (tenPow (-m))))
  | .fn .round, [.int n, .int m] =>
    .ok (.int (if 0 ≤ m then n
               else (DecQ.mk n 1 |>.mul (tenPow m)).roundHalfEven * 10 ^ (-m).toNat))
  | .fn .round, [.float x, .int m] => .ok (.float (F.roundN x m))
  | .fn .round, [_, _] => .error .typeError
  | _, _ => .error .typeError

mutual

/-- The `eval_node` (lines 90–121), fuel-indexed (the fuel models Python's
recursion limit and is never exhausted at the bounds used by
`safe_math_eval`).  A `Constant` holding an `int` or `float` (`bool`
included, being an `int` subclass) is converted by `Decimal(str(val))`:
exact for ints, the shortest-repr value for floats, and an
`InvalidOperation` for the non-numeric strings `"True"`/`"False"`;
`None` is returned unchanged.  A `Name` evaluates to the raw dictionary
entry of `ALLOWED_MATH_NAMES` or raises the whitelist `ValueError`.  A
`Call` checks that its callee is an allowed plain name before evaluating
the arguments left to right. -/
def eval_node (F : FloatOps α) : Nat → Node → Except PyErr (Value α)
  | 0, _ => .error .recursionLimit
  | _ + 1, .const v =>
    match v with
    | .intv n => .ok (.dec ⟨n, 1⟩)
    | .floatv q => .ok (.dec (pyReprVal q))
    | .boolv _ => .error .decInvalidOp
    | .nonev => .ok .pynone
  | _ + 1, .name id =>
    match ALLOWED_MATH_NAMES id with
    | none => .error (nameNotAllowed id)
    | some .pi => .ok (.float F.pi)
    | some .e => .ok (.float F.e)
    | some (.fn g) => .ok (.func g)
  | f + 1, .binop op l r =>
    match eval_node F f l with
    | .error err => .error err
    | .ok lv =>
      match eval_node F f r with
      | .error err => .error err
      | .ok rv => applyBin F op lv rv
  | f + 1, .unaryop op x =>
    match eval_node F f x with
    | .error err => .error err
    | .ok xv => applyUnary F op xv
  | f + 1, .call fn args =>
    match fn with
    | .name id =>
      match ALLOWED_MATH_NAMES id with
      | none => .error (nameNotAllowed id)
      | some obj =>
        match evalArgs F f args with
        | .error err => .error err
        | .ok vs => applyMath F obj vs
    | _ => .error (nameNotAllowed "unknown")
  | _ + 1, .attr _ => .error (.valueError "Unsupported expression element: Attribute")
  | _ + 1, .tuple _ => .error (.valueError "Unsupported expression element: Tuple")

def evalArgs (F : FloatOps α) : Nat → List Node → Except PyErr (List (Value α))
  | 0, _ => .error .recursionLimit
  | _ + 1, [] => .ok []
  | f + 1, a :: rest =>
    match eval_node F f a with
    | .error err => .error err
    | .ok v =>
      match evalArgs F f rest with
      | .error err => .error err
      | .ok vs => .ok (v :: vs)

end

/-- The value returned to the caller of `safe_math_eval` on success:
an `int` (from the integral-`Decimal` branch, or `raw` from operations
that already produced an `int`), a `float`, or the evaluated object
unchanged when it is neither `Decimal` nor `float` (a function object or
`None`). -/
inductive DisplayValue (α : Type)
  | intv (n : Int)
  | floatv (x : α)
  | raw (v : Value α)
deriving DecidableEq, Repr

/-- The result formatting of lines 126–132: an integral `Decimal`
becomes `int(result)`; any other `Decimal` is quantized to 10 fractional
digits (an `InvalidOperation` if more than 28 digits would be needed)
and converted to `float`; a `float` becomes `round(result, 10)`; any
other value is returned unchanged. -/
def formatResult (F : FloatOps α) : Value α → Except PyErr (DisplayValue α)
  | .dec q =>
    if q.isInt then .ok (.intv q.n)
    else
      let c := (q.mul (tenPow 10)).roundHalfEven
      if 28 < numDigits c.natAbs then .error .decInvalidOp
      else .ok (.floatv (F.ofDec ((DecQ.ofInt c).mul (tenPow (-(10 : Int))))))
  | .float x => .ok (.floatv (F.round10 x))
  | v => .ok (.raw v)

/-- The `safe_math_eval` (lines 62–138): normalize, parse, evaluate, format.
All modelled exceptions are caught by the `except` clauses and reported
to the caller, hence the `Except` result.  The evaluation fuel
`10 * length + 100` exceeds the depth of any tree parsed from the
normalized text. -/
def safe_math_eval (F : FloatOps α) (s : List Char) : Except PyErr (DisplayValue α) :=
  match parseExpr (normalizeExpr s) with
  | .error e => .error e
  | .ok node =>
    match eval_node F (10 * (normalizeExpr s).length + 100) node with
    | .error e => .error e
    | .ok v => formatResult F v

/-- Character set accepted by the `re.match` filter of line 417
(`^[0-9+\-*/().%\s\^×÷a-zA-Z]+$`); `\s` on a `str` pattern matches
exactly the `str.isspace()` characters, i.e. `isPyWs`. -/
def apiAllowedChar (c : Char) : Bool :=
  isDigitCh c || isArithOp c || c = '(' || c = ')' || c = '.' || c = '%' ||
  isPyWs c || c = '^' || c = '×' || c = '÷' ||
  (('a' ≤ c && c ≤ 'z') || ('A' ≤ c && c ≤ 'Z'))

inductive ApiResult (α : Type)
  /-- A 200 reply carrying the result. -/
  | ok (v : DisplayValue α)
  /-- A 400 reply from one of the three pre-checks, with its message. -/
  | reject (msg : String)
  /-- A 400 reply carrying the error string from `safe_math_eval`. -/
  | evalError (e : PyErr)
deriving DecidableEq, Repr

/-- The request-validation and dispatch logic of `calculate_api`
(lines 404–426), for a POST whose `expression` field is `raw`: the field
is stripped, then checked for emptiness, length and character set, and
only then evaluated. -/
def calculate_api (F : FloatOps α) (raw : List Char) : ApiResult α :=
  let expr := pyStripL raw
  if expr.isEmpty then .reject "Empty expression"
  else if 200 < expr.length then .reject "Expression too long (max 200 chars)"
  else if !(expr.all apiAllowedChar) then .reject "Invalid characters detected"
  else
    match safe_math_eval F expr with
    | .ok v => .ok v
    | .error e => .evalError e

/-! ## The real-number instantiation: binary64 values produced by the
`math` module are idealized as exact reals (see the module comment). -/

/-- Round a real to the nearest integer, half to even (the behavior of
Python's `round` on floats). -/
noncomputable def rndHE (x : ℝ) : ℤ :=
  if Int.fract x < 1 / 2 then ⌊x⌋
  else if 1 / 2 < Int.fract x then ⌊x⌋ + 1
  else if ⌊x⌋ % 2 = 0 then ⌊x⌋ else ⌊x⌋ + 1

noncomputable def realOps : FloatOps ℝ where
  ofDec q := (q.n : ℝ) / (q.d : ℝ)
  pi := Real.pi
  e := Real.exp 1
  add x y := x + y
  sub x y := x - y
  mul x y := x * y
  div x y := x / y
  fldiv x y := (⌊x / y⌋ : ℝ)
  fmod x y := x - y * (⌊x / y⌋ : ℝ)
  fpow x y := Real.rpow x y
  neg x := -x
  fabs x := |x|
  sqrt := Real.sqrt
  sin := Real.sin
  cos := Real.cos
  tan := Real.tan
  log10 x := Real.log x / Real.log 10
  ln := Real.log
  radians x := x * (Real.pi / 180)
  isZero x := decide (x = 0)
  isNeg x := decide (x < 0)
  round10 x := (rndHE (x * 10 ^ 10) : ℝ) / 10 ^ 10
  roundInt x := rndHE x
  roundN x m := (rndHE (x * (10 : ℝ) ^ m) : ℝ) / (10 : ℝ) ^ m

/-- The exact decimal value of a numeric literal, as the specification
words it: "Numeric literals parse as exact decimal values (digit
sequences with an optional single decimal point)".  The source instead
routes float literals through binary64 and its shortest repr
(`floatLitVal`); this definition is the reference the refinement claim
compares against. -/
def specLiteralValue (s : List Char) : DecQ := exactLitVal s

/-! ## Helper lemmas about the real instantiation. -/

theorem ofDec_real (n : Int) (d : Nat) : realOps.ofDec ⟨n, d⟩ = (n : ℝ) / (d : ℝ) := rfl

theorem rndHE_intCast (n : ℤ) : rndHE (n : ℝ) = n := by
  unfold rndHE
  rw [Int.fract_intCast, Int.floor_intCast]
  norm_num

theorem rndHE_eq_of_lt {x : ℝ} (m : ℤ) (h1 : (m : ℝ) - 1 / 2 < x)
    (h2 : x < (m : ℝ) + 1 / 2) : rndHE x = m := by
  rcases le_or_lt (m : ℝ) x with hc | hc
  · have hf : ⌊x⌋ = m := by
      rw [Int.floor_eq_iff]
      constructor
      · exact_mod_cast hc
      · linarith
    have hr : Int.fract x < 1 / 2 := by
      have : Int.fract x = x - m := by rw [Int.fract, hf]
      rw [this]
      linarith
    unfold rndHE
    rw [if_pos hr, hf]
  · have hf : ⌊x⌋ = m - 1 := by
      rw [Int.floor_eq_iff]
      constructor
      · push_cast
        linarith
      · push_cast
        linarith
    have hr : 1 / 2 < Int.fract x := by
      have : Int.fract x = x - (m - 1) := by
        rw [Int.fract, hf]
        push_cast
        ring
      rw [this]
      linarith
    unfold rndHE
    rw [if_neg (by linarith), if_pos hr, hf]
    ring

theorem round10_intCast (n : ℤ) : realOps.round10 (n : ℝ) = n := by
  show (rndHE ((n : ℝ) * 10 ^ 10) : ℝ) / 10 ^ 10 = n
  rw [show (n : ℝ) * 10 ^ 10 = ((n * 10 ^ 10 : ℤ) : ℝ) by push_cast; ring,
    rndHE_intCast]
  push_cast
  ring

theorem isNeg_real_false {x : ℝ} (h : 0 ≤ x) : realOps.isNeg x = false := by
  show decide (x < 0) = false
  exact decide_eq_false (not_lt.mpr h)

theorem eval_const_int (f : Nat) (n : Int) :
    eval_node realOps (f + 1) (.const (.intv n)) = .ok (.dec ⟨n, 1⟩) := rfl

/-- Evaluation of `sqrt` applied to a single nonnegative integer
literal, at any sufficient fuel. -/
theorem eval_sqrt_intlit (f : Nat) (n : Int)
    (hn : realOps.isNeg (realOps.ofDec ⟨n, 1⟩) = false) :
    eval_node realOps (f + 1 + 1 + 1) (.call (.name "sqrt") [.const (.intv n)]) =
      .ok (.float (realOps.sqrt (realOps.ofDec ⟨n, 1⟩))) := by
  have ha : ALLOWED_MATH_NAMES "sqrt" = some (.fn .sqrt) := rfl
  simp [eval_node, evalArgs, applyMath, toFloat, ha, hn, bind, Except.bind]

theorem eval_sin_intlit (f : Nat) (n : Int) :
    eval_node realOps (f + 1 + 1 + 1) (.call (.name "sin") [.const (.intv n)]) =
      .ok (.float (realOps.sin (realOps.radians (realOps.ofDec ⟨n, 1⟩)))) := by
  have ha : ALLOWED_MATH_NAMES "sin" = some (.fn .sin) := rfl
  simp [eval_node, evalArgs, applyMath, toFloat, ha]

theorem formatResult_float (x : ℝ) :
    formatResult realOps (.float x) = .ok (.floatv (realOps.round10 x)) := rfl

theorem round10_one : realOps.round10 (1 : ℝ) = 1 := by
  simpa using round10_intCast 1

theorem round10_two : realOps.round10 (2 : ℝ) = 2 := by
  simpa using round10_intCast 2

end Calculator


namespace Calculator

/-! ## Claim theorems. -/

/-- C1: evaluating `"10%"` yields 0.1 as documented; but `"100+10%"`
yields 100.1, not the documented 110: `replace_percent` applies the
standalone rewrite `(10/100)` exactly when the match is preceded by an
operator, inverting the contextual behavior its own comments describe
("Converts `100+10%` → `100+(100*0.1)`"), so the contextual branch never
fires after `+`. -/
theorem C1_percent_semantics :
    safe_math_eval realOps "10%".data = .ok (.floatv ((1 : ℝ) / 10)) ∧
    safe_math_eval realOps "100+10%".data = .ok (.floatv ((1001 : ℝ) / 10)) ∧
    (1001 : ℝ) / 10 ≠ 110 := by
  refine ⟨?_, ?_, by norm_num⟩
  · have h : safe_math_eval realOps "10%".data = .ok (.floatv (realOps.ofDec ⟨1, 10⟩)) := rfl
    rw [h]
    simp only [Except.ok.injEq, DisplayValue.floatv.injEq, ofDec_real]
    norm_num
  · have h : safe_math_eval realOps "100+10%".data =
        .ok (.floatv (realOps.ofDec ⟨1001, 10⟩)) := rfl
    rw [h]
    simp only [Except.ok.injEq, DisplayValue.floatv.injEq, ofDec_real]
    norm_num

/-- C2 counterexample: the literal `1.0000000000000000001` is not
evaluated at its exact decimal value: it passes through binary64 and its
shortest repr, collapsing to `Decimal('1.0')`, and the whole input
evaluates to the integer 1. -/
theorem C2_literal_roundtrip_counterexample :
    safe_math_eval realOps "1.0000000000000000001".data = .ok (.intv 1) ∧
    specLiteralValue "1.0000000000000000001".data = ⟨10000000000000000001, 10 ^ 19⟩ ∧
    floatLitVal (specLiteralValue "1.0000000000000000001".data) = ⟨1, 1⟩ ∧
    DecQ.toRat ⟨1, 1⟩ ≠ DecQ.toRat ⟨10000000000000000001, 10 ^ 19⟩ := by
  refine ⟨rfl, by decide, by decide, ?_⟩
  simp only [DecQ.toRat]
  norm_num

/-- C2 amended: a numeric literal containing a decimal point is
evaluated at `Decimal(str(float(literal)))` — the shortest-repr decimal
of the nearest binary64 — which recovers the exact decimal value for
literals that are themselves a shortest repr, such as `0.1` and `0.2`;
in particular `"0.1+0.2"` evaluates to exactly 0.3. -/
theorem C2_short_literals_exact :
    safe_math_eval realOps "0.1+0.2".data = .ok (.floatv ((3 : ℝ) / 10)) ∧
    floatLitVal (specLiteralValue "0.1".data) = specLiteralValue "0.1".data ∧
    floatLitVal (specLiteralValue "0.2".data) = specLiteralValue "0.2".data := by
  refine ⟨?_, by decide, by decide⟩
  have h : safe_math_eval realOps "0.1+0.2".data =
      .ok (.floatv (realOps.ofDec ⟨3, 10⟩)) := rfl
  rw [h]
  simp only [Except.ok.injEq, DisplayValue.floatv.injEq, ofDec_real]
  norm_num

/-- C3 counterexample: `import` is a Python reserved keyword, so
`"import(1)"` fails in `ast.parse` with a `SyntaxError`; the reported
error is not the `NameNotAllowed` `ValueError`. -/
theorem C3_keyword_counterexample :
    safe_math_eval realOps "import(1)".data = .error .syntaxError ∧
    PyErr.syntaxError ≠ nameNotAllowed "import" :=
  ⟨rfl, by decide⟩

/-- C3 amended: for every identifier absent from `ALLOWED_MATH_NAMES`,
evaluating it as a bare name or as the callee of a call returns the
`NameNotAllowed` error (never executing anything; the evaluator is a
total function); at string level, `"os(1)"` does so, while reserved
keywords such as `import` are already rejected by the parser as
`SyntaxError`. -/
theorem C3_whitelist_closure (id : String) (fuel : Nat) (args : List Node)
    (h : ALLOWED_MATH_NAMES id = none) :
    eval_node realOps (fuel + 1) (.name id) = .error (nameNotAllowed id) ∧
    eval_node realOps (fuel + 1) (.call (.name id) args) = .error (nameNotAllowed id) ∧
    safe_math_eval realOps "os(1)".data = .error (nameNotAllowed "os") := by
  refine ⟨?_, ?_, rfl⟩
  · simp [eval_node, h]
  · simp [eval_node, h]

theorem C3_whitelist_closure_witness :
    eval_node realOps 1 (.call (.name "os") []) = .error (nameNotAllowed "os") :=
  (C3_whitelist_closure "os" 0 [] rfl).2.1

/-- C4 counterexample: `"5%0"` does not produce `DivisionByZero`: the
percentage rewrite turns it into `"(5/100)0"`, a `SyntaxError`; and even
a modulo that reaches evaluation, `"(5)%0"`, raises
`decimal.InvalidOperation`, not `decimal.DivisionByZero`. -/
theorem C4_mod_zero_counterexample :
    safe_math_eval realOps "5%0".data = .error .syntaxError ∧
    PyErr.syntaxError ≠ PyErr.decDivByZero ∧
    safe_math_eval realOps "(5)%0".data = .error .decInvalidOp ∧
    PyErr.decInvalidOp ≠ PyErr.decDivByZero :=
  ⟨rfl, by decide, rfl, by decide⟩

/-- C4 amended: division and integer division of any nonzero `Decimal`
value by the literal 0 report `decimal.DivisionByZero` (a
`ZeroDivisionError` subclass), as the string inputs `"5/0"` and
`"5//0"` illustrate; a `Decimal` modulo 0 reports
`decimal.InvalidOperation` instead, and `"X%0"` with `X` ending in a
digit is already a `SyntaxError` after the percent rewrite.  No infinite
or NaN value is ever produced: each case is an error, not a value. -/
theorem C4_division_by_zero (t : Node) (fuel : Nat) (q : DecQ)
    (hq : q.isZero = false) (h : eval_node realOps fuel t = .ok (.dec q)) :
    eval_node realOps (fuel + 1) (.binop .div t (.const (.intv 0))) = .error .decDivByZero ∧
    eval_node realOps (fuel + 1) (.binop .floordiv t (.const (.intv 0))) = .error .decDivByZero ∧
    eval_node realOps (fuel + 1) (.binop .mod t (.const (.intv 0))) = .error .decInvalidOp ∧
    safe_math_eval realOps "5/0".data = .error .decDivByZero ∧
    safe_math_eval realOps "5//0".data = .error .decDivByZero := by
  have hq' : ¬q.n = 0 := by simpa [DecQ.isZero] using hq
  match fuel with
  | 0 => simp [eval_node] at h
  | f + 1 =>
    refine ⟨?_, ?_, ?_, rfl, rfl⟩ <;>
      simp [eval_node, h, applyBin, applyBinDec, decDiv, decFloorDiv, decMod, hq',
        DecQ.isZero, bind, Except.bind, Except.map]

theorem C4_division_by_zero_witness :
    eval_node realOps 2 (.binop .div (.const (.intv 5)) (.const (.intv 0))) =
      .error .decDivByZero :=
  (C4_division_by_zero (.const (.intv 5)) 1 ⟨5, 1⟩ (by decide) rfl).1

/-- C5 counterexample: a raw input of 201 characters whose trailing
characters are spaces is not rejected: the length check runs on the
stripped text, so `"2+2"` padded with 198 spaces evaluates to 4. -/
theorem C5_length_bound_counterexample :
    ("2+2".data ++ List.replicate 198 ' ').length = 201 ∧
    calculate_api realOps ("2+2".data ++ List.replicate 198 ' ') = .ok (.intv 4) :=
  ⟨by decide, rfl⟩

/-- C5 amended: every input whose length after stripping leading and
trailing whitespace exceeds 200 characters is rejected with the length
error before any parsing, regardless of content. -/
theorem C5_length_check_after_strip (raw : List Char)
    (h : 200 < (pyStripL raw).length) :
    calculate_api realOps raw = .reject "Expression too long (max 200 chars)" := by
  have he : (pyStripL raw).isEmpty = false := by
    cases hh : pyStripL raw with
    | nil => rw [hh] at h; simp at h
    | cons a l => simp
  simp [calculate_api, he, h]

theorem C5_length_check_after_strip_witness :
    calculate_api realOps (List.replicate 201 'a') =
      .reject "Expression too long (max 200 chars)" :=
  C5_length_check_after_strip _ (by decide)

/-! Lemmas for the percent-elimination claim (C6). -/

theorem isDigitCh_ne_pct {c : Char} (h : isDigitCh c = true) : c ≠ '%' := by
  intro hc
  subst hc
  simp [isDigitCh] at h

theorem takeWhile_dropWhile_eq (p : Char → Bool) (l : List Char) :
    l = l.takeWhile p ++ l.dropWhile p :=
  (List.takeWhile_append_dropWhile p l).symm

theorem matchPct_decomp {l num rest : List Char}
    (h : matchPct l = some (num, rest)) : l = num ++ '%' :: rest := by
  unfold matchPct at h
  split at h
  · exact absurd h (by simp)
  next d1 r hdweq hne =>
    injection h with h1
    injection h1 with hnum hrest
    subst hnum
    subst hrest
    conv_lhs => rw [takeWhile_dropWhile_eq isDigitCh l]
    rw [hdweq]
  next d1 r2 hdweq hne =>
    split at h
    next r heq2 =>
      injection h with h1
      injection h1 with hnum hrest
      subst hnum
      subst hrest
      conv_lhs => rw [takeWhile_dropWhile_eq isDigitCh l]
      rw [hdweq]
      have hr2 : r2 = r2.takeWhile isDigitCh ++ '%' :: r := by
        conv_lhs => rw [takeWhile_dropWhile_eq isDigitCh r2]
        rw [heq2]
      conv_lhs => rw [hr2]
      simp
    · exact absurd h (by simp)
  · exact absurd h (by simp)

theorem matchPct_num_no_pct {l num rest : List Char}
    (h : matchPct l = some (num, rest)) : '%' ∉ num := by
  unfold matchPct at h
  split at h
  · exact absurd h (by simp)
  next d1 r hdweq hne =>
    injection h with h1
    injection h1 with hnum hrest
    subst hnum
    intro hmem
    exact absurd (List.mem_takeWhile_imp hmem) (by simp [isDigitCh])
  next d1 r2 hdweq hne =>
    split at h
    next r heq2 =>
      injection h with h1
      injection h1 with hnum hrest
      subst hnum
      intro hmem
      rcases List.mem_append.mp hmem with hm | hm
      · exact absurd (List.mem_takeWhile_imp hm) (by simp [isDigitCh])
      · rcases List.mem_cons.mp hm with hm2 | hm2
        · exact absurd hm2 (by decide)
        · exact absurd (List.mem_takeWhile_imp hm2) (by simp [isDigitCh])
    · exact absurd h (by simp)
  · exact absurd h (by simp)

theorem matchPct_digit_pct {c : Char} (r : List Char) (hc : isDigitCh c = true) :
    matchPct (c :: '%' :: r) = some ([c], r) := by
  unfold matchPct
  simp [List.takeWhile_cons, List.dropWhile_cons, hc, show isDigitCh '%' = false from rfl]

theorem inBaseLangF_no_pct : ∀ (f : Nat) (l : List Char),
    inBaseLangF f l = true → '%' ∉ l := by
  intro f
  induction f with
  | zero => intro l h; simp [inBaseLangF] at h
  | succ g ih =>
    intro l h hmem
    rw [inBaseLangF] at h
    split at h
    · exact absurd h (by simp)
    · rw [takeWhile_dropWhile_eq isBaseCh l] at hmem
      rcases List.mem_append.mp hmem with hm | hm
      · exact absurd (List.mem_takeWhile_imp hm) (by simp [isBaseCh, isDigitCh])
      · split at h
        next heq => rw [heq] at hm; exact absurd hm (List.not_mem_nil '%')
        next op r2 heq =>
          rw [heq] at hm
          rw [Bool.and_eq_true] at h
          rcases List.mem_cons.mp hm with hm2 | hm2
          · rw [← hm2] at h
            simp [isArithOp] at h
          · exact ih r2 h.2 hm2

theorem findBase_no_pct : ∀ (l b : List Char), findBase l = some b → '%' ∉ b := by
  intro l
  induction l with
  | nil => intro b h; simp [findBase] at h
  | cons c t ih =>
    intro b h
    rw [findBase] at h
    split at h
    next hbase =>
      injection h with h1
      subst h1
      exact inBaseLangF_no_pct _ _ hbase
    · exact ih b h

theorem pctOkFrom_cons (p : Option Char) (c : Char) (r : List Char) :
    pctOkFrom p (c :: r) =
      ((if c = '%' then
        (match p with
         | some d => isDigitCh d
         | none => false)
       else true) && pctOkFrom (some c) r) := rfl

theorem replace_percent_no_pct {before num : List Char} (hn : '%' ∉ num) :
    '%' ∉ replace_percent before num := by
  unfold replace_percent
  split
  · intro hmem
    rcases List.mem_append.mp hmem with hm | hm
    · rcases List.mem_cons.mp hm with hm2 | hm2
      · exact absurd hm2 (by decide)
      · exact hn hm2
    · exact absurd hm (by decide)
  · split
    · rename_i base hfb
      intro hmem
      rcases List.mem_append.mp hmem with hm | hm
      · rcases List.mem_append.mp hm with hm2 | hm2
        · rcases List.mem_append.mp hm2 with hm3 | hm3
          · exact absurd hm3 (by decide)
          · exact findBase_no_pct _ _ hfb hm3
        · rcases List.mem_cons.mp hm2 with hm3 | hm3
          · exact absurd hm3 (by decide)
          · exact hn hm3
      · exact absurd hm (by decide)
    · intro hmem
      rcases List.mem_append.mp hmem with hm | hm
      · rcases List.mem_cons.mp hm with hm2 | hm2
        · exact absurd hm2 (by decide)
        · exact hn hm2
      · exact absurd hm (by decide)

theorem lastD_concat : ∀ (xs : List Char) (a : Char) (p : Option Char),
    lastD (xs ++ [a]) p = some a := by
  intro xs
  induction xs with
  | nil => intro a p; rfl
  | cons x t ih => intro a p; exact ih a (some x)

theorem pctOk_tail {p : Option Char} {c : Char} {r : List Char}
    (h : pctOkFrom p (c :: r) = true) : pctOkFrom (some c) r = true := by
  rw [pctOkFrom_cons, Bool.and_eq_true] at h
  exact h.2

theorem pctOk_append : ∀ (xs : List Char) (p : Option Char) (ys : List Char),
    pctOkFrom p (xs ++ ys) = true → pctOkFrom (lastD xs p) ys = true := by
  intro xs
  induction xs with
  | nil => intro p ys h; exact h
  | cons x t ih =>
    intro p ys h
    exact ih (some x) ys (pctOk_tail h)

theorem subScanF_no_pct : ∀ (fuel : Nat) (before l : List Char),
    pctOkFrom (lastD before none) l = true →
    (∀ r, l = '%' :: r → ∀ d, lastD before none = some d → isDigitCh d = false) →
    '%' ∉ subScanF fuel before l := by
  intro fuel
  induction fuel with
  | zero => intro before l _ _; simp [subScanF]
  | succ f ih =>
    intro before l hok hhead
    match l with
    | [] => simp [subScanF]
    | c :: rest =>
      cases hm : matchPct (c :: rest) with
      | some pr =>
        obtain ⟨num, rest2⟩ := pr
        have hdec := matchPct_decomp hm
        have hnum := matchPct_num_no_pct hm
        rw [subScanF, hm]
        intro hmem
        rcases List.mem_append.mp hmem with h | h
        · exact replace_percent_no_pct hnum h
        · have hok2 : pctOkFrom (lastD (before ++ num ++ ['%']) none) rest2 = true := by
            rw [lastD_concat]
            have hra : pctOkFrom (lastD before none) ((num ++ ['%']) ++ rest2) = true := by
              rw [List.append_assoc]
              simpa [hdec] using hok
            have := pctOk_append (num ++ ['%']) (lastD before none) rest2 hra
            rwa [lastD_concat] at this
          have hhead2 : ∀ r, rest2 = '%' :: r →
              ∀ d, lastD (before ++ num ++ ['%']) none = some d → isDigitCh d = false := by
            intro r _ d hd
            rw [lastD_concat] at hd
            injection hd with hd2
            rw [← hd2]
            rfl
          exact ih (before ++ num ++ ['%']) rest2 hok2 hhead2 h
      | none =>
        rw [subScanF, hm]
        have hc : c ≠ '%' := by
          intro hceq
          subst hceq
          rw [pctOkFrom_cons, if_pos rfl, Bool.and_eq_true] at hok
          obtain ⟨h1, _⟩ := hok
          cases hp : lastD before none with
          | none => rw [hp] at h1; simp at h1
          | some d =>
            rw [hp] at h1
            simp only at h1
            have hfalse := hhead rest rfl d hp
            rw [hfalse] at h1
            exact Bool.noConfusion h1
        intro hmem
        rcases List.mem_cons.mp hmem with h | h
        · exact hc h.symm
        · refine ih (before ++ [c]) rest ?_ ?_ h
          · rw [lastD_concat]
            exact pctOk_tail hok
          · intro r hr d hd
            rw [lastD_concat] at hd
            injection hd with hd2
            subst hd2
            by_contra hdig
            rw [Bool.not_eq_false] at hdig
            rw [hr] at hm
            rw [matchPct_digit_pct r hdig] at hm
            exact Option.noConfusion hm

/-- C6 counterexample: the percent rewrite only fires on a `'%'`
immediately preceded by a digit, so the normalized form of `"(5)%2"` is
unchanged and still contains `'%'` (which then parses as Python's
modulo operator). -/
theorem C6_percent_survives_counterexample :
    normalizeExpr "(5)%2".data = "(5)%2".data ∧
    '%' ∈ normalizeExpr "(5)%2".data := by
  constructor
  · decide
  · decide

/-- C6 amended: the rewrite need not remove every `'%'` (see the
counterexample), but for every input in which each `'%'` is immediately
preceded by a digit, the rewritten expression contains no `'%'` at all.
The digit-preceded condition is sufficient, not necessary: a `'%'`
preceded by a dot that follows digits is also rewritten, as in `"5.%"`
(second conjunct). -/
theorem C6_percent_elimination (l : List Char) (h : pctOkFrom none l = true) :
    '%' ∉ subPercent l ∧ '%' ∉ subPercent "5.%".data := by
  constructor
  · unfold subPercent
    exact subScanF_no_pct (l.length + 1) [] l h
      (by intro r hr d hd; exact Option.noConfusion hd)
  · decide

theorem C6_percent_elimination_witness :
    '%' ∉ subPercent "100+10%".data :=
  (C6_percent_elimination _ (by decide)).1

/-- C7 counterexample: `"sqrt(4)"` evaluates to the exactly integral
value 2, but the result is the float `2.0` (`round(result, 10)` on the
float branch), not the integer 2: the integral-to-int rule only applies
to `Decimal` results. -/
theorem C7_integral_float_counterexample :
    safe_math_eval realOps "sqrt(4)".data = .ok (.floatv 2) ∧
    (DisplayValue.floatv (2 : ℝ)) ≠ (DisplayValue.intv 2) := by
  constructor
  · have hn : realOps.isNeg (realOps.ofDec ⟨4, 1⟩) = false :=
      isNeg_real_false (by rw [ofDec_real]; norm_num)
    have hp : parseExpr (normalizeExpr "sqrt(4)".data) =
        .ok (.call (.name "sqrt") [.const (.intv 4)]) := rfl
    have hlen : 10 * (normalizeExpr "sqrt(4)".data).length + 100 = 167 + 1 + 1 + 1 := by
      decide
    have hval : realOps.sqrt (realOps.ofDec ⟨4, 1⟩) = 2 := by
      have hofdec : realOps.ofDec ⟨(4 : Int), (1 : Nat)⟩ = (4 : ℝ) := by
        rw [ofDec_real]; norm_num
      rw [hofdec]
      show Real.sqrt 4 = 2
      rw [show (4 : ℝ) = 2 ^ 2 by norm_num, Real.sqrt_sq (by norm_num : (0 : ℝ) ≤ 2)]
    simp only [safe_math_eval, hp, hlen, eval_sqrt_intlit 167 4 hn, formatResult_float,
      hval, round10_two]
  · intro h
    exact DisplayValue.noConfusion h

/-- C7 amended: an exactly integral `Decimal` result is returned as the
integer `int(result)`; a non-integral `Decimal` is quantized to 10
fractional digits; but a `float` result is returned as
`round(result, 10)`, a float, even when integral.  Concretely `"2+2"`
returns the integer 4 and `"sqrt(2)"` returns the 10-digit decimal
`1.4142135624`. -/
theorem C7_result_formatting :
    (∀ q : DecQ, q.isInt = true → formatResult realOps (.dec q) = .ok (.intv q.n)) ∧
    safe_math_eval realOps "2+2".data = .ok (.intv 4) ∧
    safe_math_eval realOps "sqrt(2)".data = .ok (.floatv ((14142135624 : ℝ) / 10 ^ 10)) := by
  refine ⟨?_, rfl, ?_⟩
  · intro q hq
    simp [formatResult, hq]
  · have hn : realOps.isNeg (realOps.ofDec ⟨2, 1⟩) = false :=
      isNeg_real_false (by rw [ofDec_real]; norm_num)
    have hp : parseExpr (normalizeExpr "sqrt(2)".data) =
        .ok (.call (.name "sqrt") [.const (.intv 2)]) := rfl
    have hlen : 10 * (normalizeExpr "sqrt(2)".data).length + 100 = 167 + 1 + 1 + 1 := by
      decide
    have hofdec : realOps.ofDec ⟨(2 : Int), (1 : Nat)⟩ = (2 : ℝ) := by
      rw [ofDec_real]; norm_num
    have hlow : (141421356235 : ℝ) / 10 ^ 11 < Real.sqrt 2 := by
      rw [Real.lt_sqrt (by positivity)]
      norm_num
    have hhigh : Real.sqrt 2 < (141421356245 : ℝ) / 10 ^ 11 := by
      rw [Real.sqrt_lt' (by positivity)]
      norm_num
    have hrnd : rndHE (Real.sqrt 2 * 10 ^ 10) = 14142135624 := by
      apply rndHE_eq_of_lt
      · push_cast
        nlinarith [hlow]
      · push_cast
        nlinarith [hhigh]
    have hround : realOps.round10 (realOps.sqrt (realOps.ofDec ⟨2, 1⟩)) =
        (14142135624 : ℝ) / 10 ^ 10 := by
      rw [hofdec]
      show (rndHE (Real.sqrt 2 * 10 ^ 10) : ℝ) / 10 ^ 10 = _
      rw [hrnd]
      norm_num
    simp only [safe_math_eval, hp, hlen, eval_sqrt_intlit 167 2 hn, formatResult_float,
      hround]

theorem C7_result_formatting_witness :
    formatResult realOps (.dec ⟨4, 1⟩) = .ok (.intv 4) :=
  C7_result_formatting.1 ⟨4, 1⟩ rfl

/-- C8: the whitelisted trigonometric entries are
`lambda x: math.sin(math.radians(x))` and its `cos`/`tan` analogues, so
the argument is interpreted as degrees and converted to radians before
the underlying trigonometric function; `"sin(90)"` evaluates to 1, which
is not the radian-based sine of 90. -/
theorem C8_trig_degrees :
    (∀ x : ℝ, applyMath realOps (.fn .sin) [.float x] =
      .ok (.float (Real.sin (x * Real.pi / 180)))) ∧
    (∀ x : ℝ, applyMath realOps (.fn .cos) [.float x] =
      .ok (.float (Real.cos (x * Real.pi / 180)))) ∧
    (∀ x : ℝ, applyMath realOps (.fn .tan) [.float x] =
      .ok (.float (Real.tan (x * Real.pi / 180)))) ∧
    safe_math_eval realOps "sin(90)".data = .ok (.floatv 1) ∧
    Real.sin 90 ≠ 1 := by
  have hrad : ∀ x : ℝ, realOps.radians x = x * Real.pi / 180 := by
    intro x
    show x * (Real.pi / 180) = x * Real.pi / 180
    ring
  refine ⟨?_, ?_, ?_, ?_, ?_⟩
  · intro x
    simp [applyMath, toFloat, hrad]
    rfl
  · intro x
    simp [applyMath, toFloat, hrad]
    rfl
  · intro x
    simp [applyMath, toFloat, hrad]
    rfl
  · have hp : parseExpr (normalizeExpr "sin(90)".data) =
        .ok (.call (.name "sin") [.const (.intv 90)]) := rfl
    have hlen : 10 * (normalizeExpr "sin(90)".data).length + 100 = 167 + 1 + 1 + 1 := by
      decide
    have hofdec : realOps.ofDec ⟨(90 : Int), (1 : Nat)⟩ = (90 : ℝ) := by
      rw [ofDec_real]; norm_num
    have hval : realOps.sin (realOps.radians (realOps.ofDec ⟨90, 1⟩)) = 1 := by
      rw [hofdec, hrad, show (90 : ℝ) * Real.pi / 180 = Real.pi / 2 by ring]
      exact Real.sin_pi_div_two
    simp only [safe_math_eval, hp, hlen, eval_sin_intlit 167 90, hval, formatResult_float,
      round10_one]
  · intro hcontra
    rw [Real.sin_eq_one_iff] at hcontra
    obtain ⟨k, hk⟩ := hcontra
    have h1 : Real.pi * (8 * (k : ℝ) + 2) = 360 := by linear_combination 4 * hk
    have hk0 : (8 * (k : ℝ) + 2) ≠ 0 := by
      intro h0
      have h0z : (8 * k + 2 : ℤ) = 0 := by exact_mod_cast h0
      omega
    refine irrational_pi ⟨(360 : ℚ) / (8 * (k : ℚ) + 2), ?_⟩
    push_cast
    rw [div_eq_iff hk0]
    linarith [h1]

/-- C9: syntactically valid expressions over whitelisted names can still
fail: literals are `Decimal` while `pi` and `sqrt` results are floats,
and Python raises `TypeError` on any `Decimal`/`float` binary operation,
so `"2*pi"` and `"sqrt(2)+1"` each return an error. -/
theorem C9_decimal_float_mix :
    safe_math_eval realOps "2*pi".data = .error .typeError ∧
    safe_math_eval realOps "sqrt(2)+1".data = .error .typeError := by
  refine ⟨rfl, ?_⟩
  have hn : realOps.isNeg (realOps.ofDec ⟨2, 1⟩) = false :=
    isNeg_real_false (by rw [ofDec_real]; norm_num)
  have hsum : ∀ f : Nat,
      eval_node realOps (f + 1 + 1 + 1 + 1)
        (.binop .add (.call (.name "sqrt") [.const (.intv 2)]) (.const (.intv 1))) =
        .error .typeError := by
    intro f
    have ha : ALLOWED_MATH_NAMES "sqrt" = some (.fn .sqrt) := rfl
    simp [eval_node, evalArgs, applyMath, toFloat, applyBin, ha, hn]
  have hp : parseExpr (normalizeExpr "sqrt(2)+1".data) =
      .ok (.binop .add (.call (.name "sqrt") [.const (.intv 2)]) (.const (.intv 1))) := rfl
  have hlen : 10 * (normalizeExpr "sqrt(2)+1".data).length + 100 = 186 + 1 + 1 + 1 + 1 := by
    decide
  simp only [safe_math_eval, hp, hlen, hsum 186]

/-- C10: the bare input `"sqrt"` evaluates without error to the function
object itself (`ALLOWED_MATH_NAMES['sqrt']`), which the formatter passes
through unchanged — a non-numeric result rather than a number or a typed
failure. -/
theorem C10_bare_function_name :
    safe_math_eval realOps "sqrt".data = .ok (.raw (.func .sqrt)) ∧
    (∀ n : Int, (DisplayValue.raw (Value.func MathFn.sqrt) : DisplayValue ℝ) ≠ .intv n) ∧
    (∀ x : ℝ, (DisplayValue.raw (Value.func MathFn.sqrt) : DisplayValue ℝ) ≠ .floatv x) := by
  refine ⟨rfl, ?_, ?_⟩
  · intro n h
    exact DisplayValue.noConfusion h
  · intro x h
    exact DisplayValue.noConfusion h

end Calculator
